import Mathlib

/-!
Shallow embedding of the `process` package of ppltools/gotests.

The repository holds two variants of the same package:
  * `src/gotests/process/process.go` — reports errors with `fmt.Fprintf` on the
    `out` writer and returns; embedded below in namespace `process`.
  * `src/unnamed/part_000` — reports errors through `cmsg.Die` / `cmsg.Warn` /
    `cmsg.Info`; embedded below in namespace `processU`.

External dependencies are taken as oracle parameters, so every theorem
quantifies over their behaviour:
  * `gotests.GenerateTests` — a function `Gen` from a path and engine options
    to either an error message or a list of generated tests;
  * `regexp.Compile` — a function `Compile` from a pattern string to either an
    error message or a compiled value (modelled opaquely as a string);
  * `ioutil.WriteFile` — a function `Wr` from a path and content to an optional
    error message;
  * `cmsg.Die` is modelled as printing its message and terminating the run
    (constructor `Event.die` plus a halted flag), `cmsg.Warn` and `cmsg.Info`
    as printing a line.

All observable behaviour is an event trace (`List Event`); `Event.genCall`
marks the entry into `gotests.GenerateTests` for a path, so that the claims
about which paths are processed become statements about the trace.
-/

namespace GotestsProcess

/-- Colour code for informational messages, `msgInfo` in process.go. -/
def msgInfo : String := "0;32"

/-- Colour code for error messages, `msgError` in process.go. -/
def msgError : String := "0;31"

/-- File mode for written test files, `newFilePerm os.FileMode = 0644`. -/
def newFilePerm : Nat := 0o644

/-- The `Options` struct of the wrapper (identical in both variants). -/
structure Options where
  OnlyFuncs : String
  ExclFuncs : String
  ExportedFuncs : Bool
  AllFuncs : Bool
  PrintInputs : Bool
  Subtests : Bool
  WriteOutput : Bool
  AllowError : Bool
deriving DecidableEq, Repr

/-- The Go zero value `Options{}`, substituted for a nil `*Options`. -/
def zeroOptions : Options := ⟨"", "", false, false, false, false, false, false⟩

/-- The `gotests.Options` value handed to the engine. Compiled regexps are
opaque to the wrapper and modelled as strings; `none` models a nil pointer. -/
structure GOptions where
  Only : Option String
  Exclude : Option String
  Exported : Bool
  PrintInputs : Bool
  Subtests : Bool
  AllowError : Bool
deriving DecidableEq, Repr

/-- A `gotests.GeneratedTest`: target path, rendered bytes (as a string), and
the list of generated test function names (the `TestName()` of each entry of
its `Functions` slice). -/
structure GeneratedTest where
  Path : String
  Output : String
  Functions : List String
deriving DecidableEq, Repr

/-- One observable effect of a run. -/
inductive Event where
  /-- A formatted status line `fmt.Fprintf(out, msgFmt, color, tag, text)`. -/
  | msg (color : String) (tag : String) (text : String)
  /-- The malformed write-failure line of process.go, where `msgFmt` receives
  only a colour and the error (one argument short). -/
  | msg2 (color : String) (text : String)
  /-- A direct `fmt.Fprintf(out, s)` of an error text. -/
  | raw (text : String)
  /-- An `out.Write` of generated-test bytes. -/
  | bytes (content : String)
  /-- An `ioutil.WriteFile(path, content, perm)` attempt. -/
  | writeFile (path : String) (content : String) (perm : Nat)
  /-- Entry into `gotests.GenerateTests` for a path. -/
  | genCall (path : String)
  /-- A `cmsg.Die` line (prints, then terminates the run). -/
  | die (text : String)
  /-- A `cmsg.Warn` line. -/
  | warn (text : String)
  /-- A `cmsg.Info` line. -/
  | info (text : String)
deriving DecidableEq, Repr

/-- Decidable equality on `Except`, used to evaluate the embedding at
concrete inputs. -/
instance {ε α : Type} [DecidableEq ε] [DecidableEq α] : DecidableEq (Except ε α) :=
  fun a b =>
    match a, b with
    | .error e1, .error e2 =>
      if h : e1 = e2 then isTrue (by rw [h]) else isFalse (by intro hh; cases hh; exact h rfl)
    | .error _, .ok _ => isFalse (by intro hh; cases hh)
    | .ok _, .error _ => isFalse (by intro hh; cases hh)
    | .ok a1, .ok a2 =>
      if h : a1 = a2 then isTrue (by rw [h]) else isFalse (by intro hh; cases hh; exact h rfl)

/-- Oracle for `regexp.Compile`: an error message or an opaque compiled value. -/
abbrev Compile := String → Except String String

/-- Oracle for `gotests.GenerateTests`. -/
abbrev Gen := String → GOptions → Except String (List GeneratedTest)

/-- Oracle for `ioutil.WriteFile`: `some e` is a failure with message `e`. -/
abbrev Wr := String → String → Option String

/-- The shared helper `parseRegexp`: the empty string yields no pattern and no
error without consulting the compiler; otherwise the compile result is
passed through. -/
def parseRegexp (compile : Compile) (s : String) : Except String (Option String) :=
  if s = "" then .ok none
  else
    match compile s with
    | .error e => .error e
    | .ok re => .ok (some re)

namespace process

/-- The `parseOptions` of process.go: returns the emitted events and the
engine options (`none` models the nil return after an error line). -/
def parseOptions (compile : Compile) (opt : Options) : List Event × Option GOptions :=
  if opt.OnlyFuncs = "" ∧ opt.ExclFuncs = "" ∧ opt.ExportedFuncs = false ∧ opt.AllFuncs = false then
    ([.msg msgError "[ERROR]\t" "-> please specify either the -only, -excl, -export, or -all flag"], none)
  else
    match parseRegexp compile opt.OnlyFuncs with
    | .error e => ([.msg msgError "[ERROR]\t" ("-> invalid -only regex:" ++ e)], none)
    | .ok onlyRE =>
      match parseRegexp compile opt.ExclFuncs with
      | .error e => ([.msg msgError "[ERROR]\t" ("-> invalid -excl regex:" ++ e)], none)
      | .ok exclRE =>
        ([], some ⟨onlyRE, exclRE, opt.ExportedFuncs, opt.PrintInputs, opt.Subtests, opt.AllowError⟩)

/-- The `outputTest` of process.go. On write failure the per-function lines
are skipped; with write-mode off the raw bytes are written to `out`. -/
def outputTest (wr : Wr) (writeOutput : Bool) (t : GeneratedTest) : List Event :=
  if writeOutput then
    match wr t.Path t.Output with
    | some e => [.writeFile t.Path t.Output newFilePerm, .msg2 msgError e]
    | none =>
      Event.writeFile t.Path t.Output newFilePerm ::
        t.Functions.map (fun f => Event.msg msgInfo "[INFO]\t" ("-> generated: " ++ f))
  else
    t.Functions.map (fun f => Event.msg msgInfo "[INFO]\t" ("-> generated: " ++ f)) ++
      [.bytes t.Output]

/-- The `generateTests` of process.go: on an engine error the error text is
printed and the function returns; zero tests yield one info line. -/
def generateTests (gen : Gen) (wr : Wr) (path : String) (writeOutput : Bool)
    (opt : GOptions) : List Event :=
  Event.genCall path ::
    match gen path opt with
    | .error e => [.raw e]
    | .ok gts =>
      if gts.length = 0 then
        [.msg msgInfo "[INFO]\t" ("-> no tests generated for: " ++ path)]
      else
        (gts.map (outputTest wr writeOutput)).flatten

/-- The `Run` of process.go. A nil `opts` pointer is replaced by the zero
value; a nil result of `parseOptions` ends the run; empty `args` yield one
error line; otherwise each path is handled by `generateTests` in order. -/
def Run (compile : Compile) (gen : Gen) (wr : Wr) (args : List String)
    (opts : Option Options) : List Event :=
  let o := opts.getD zeroOptions
  let pr := parseOptions compile o
  match pr.2 with
  | none => pr.1
  | some opt =>
    if args.length = 0 then
      pr.1 ++ [.msg msgError "[ERROR]\t" "-> please specify a file or directory containing the source"]
    else
      pr.1 ++ (args.map (fun path => generateTests gen wr path o.WriteOutput opt)).flatten

end process

/-- Runs a list of effectful steps in order, stopping at the first one whose
halted flag is set (the `for` loops of part_000, where a `cmsg.Die` inside the
body terminates the run). -/
def runSeq (f : α → List Event × Bool) : List α → List Event × Bool
  | [] => ([], false)
  | x :: xs =>
    let r := f x
    if r.2 then r
    else
      let rest := runSeq f xs
      (r.1 ++ rest.1, rest.2)

namespace processU

/-- The `parseOptions` of part_000: configuration errors go through
`cmsg.Die`, so `none` here carries a halted run. -/
def parseOptions (compile : Compile) (opt : Options) : List Event × Option GOptions :=
  if opt.OnlyFuncs = "" ∧ opt.ExclFuncs = "" ∧ opt.ExportedFuncs = false ∧ opt.AllFuncs = false then
    ([.die "-> please specify either the -only, -excl, -export, or -all flag"], none)
  else
    match parseRegexp compile opt.OnlyFuncs with
    | .error e => ([.die ("-> invalid -only regex: " ++ e)], none)
    | .ok onlyRE =>
      match parseRegexp compile opt.ExclFuncs with
      | .error e => ([.die ("-> invalid -excl regex: " ++ e)], none)
      | .ok exclRE =>
        ([], some ⟨onlyRE, exclRE, opt.ExportedFuncs, opt.PrintInputs, opt.Subtests, opt.AllowError⟩)

/-- The `outputTest` of part_000: a write failure dies; with write-mode off
only the per-function info lines are emitted — the generated bytes are
never written to `out` in this variant. -/
def outputTest (wr : Wr) (writeOutput : Bool) (t : GeneratedTest) : List Event × Bool :=
  if writeOutput then
    match wr t.Path t.Output with
    | some e =>
      ([.writeFile t.Path t.Output newFilePerm,
        .die ("-> write file " ++ t.Path ++ " failed: " ++ e)], true)
    | none =>
      (Event.writeFile t.Path t.Output newFilePerm ::
        t.Functions.map (fun f => Event.info ("-> generated: " ++ f)), false)
  else
    (t.Functions.map (fun f => Event.info ("-> generated: " ++ f)), false)

/-- The `generateTests` of part_000: an engine error dies; zero tests emit a
warning and fall through to the (then empty) output loop. -/
def generateTests (gen : Gen) (wr : Wr) (path : String) (writeOutput : Bool)
    (opt : GOptions) : List Event × Bool :=
  match gen path opt with
  | .error e => ([Event.genCall path, .die ("-> generate test failed: " ++ e)], true)
  | .ok gts =>
    let w : List Event :=
      if gts.length = 0 then [.warn ("-> no tests generated for: " ++ path)] else []
    let r := runSeq (outputTest wr writeOutput) gts
    (Event.genCall path :: (w ++ r.1), r.2)

/-- The `Run` of part_000. The halted flag records whether `cmsg.Die` ended
the run. -/
def Run (compile : Compile) (gen : Gen) (wr : Wr) (args : List String)
    (opts : Option Options) : List Event × Bool :=
  let o := opts.getD zeroOptions
  let pr := parseOptions compile o
  match pr.2 with
  | none => (pr.1, true)
  | some opt =>
    if args.length = 0 then
      (pr.1 ++ [.die "-> please specify a file or directory containing the source"], true)
    else
      let r := runSeq (fun path => generateTests gen wr path o.WriteOutput opt) args
      (pr.1 ++ r.1, r.2)

end processU

/-! Concrete oracles used to evaluate the embedding at specific inputs. -/

/-- A compiler oracle that accepts every pattern. -/
def cCompile : Compile := fun s => .ok s

/-- A compiler oracle that rejects exactly the pattern `(`. -/
def cCompileBad : Compile := fun s =>
  if s = "(" then .error "error parsing regexp: missing closing )" else .ok s

/-- An engine oracle that fails on path `a` and yields no tests elsewhere. -/
def cGen : Gen := fun p _ => if p = "a" then .error "boom" else .ok []

/-- A file-write oracle that always succeeds. -/
def cWr : Wr := fun _ _ => none

/-- An `Options` value with only `AllFuncs` set; `AllowError` is false. -/
def cOptsAll : Options := ⟨"", "", false, true, false, false, false, false⟩

/-- An `Options` value with three filtering modes set at once. -/
def cOptsMulti : Options := ⟨"x", "", true, true, false, false, false, false⟩

/-- A sample generated test with one test function. -/
def cTest : GeneratedTest := ⟨"foo_test.go", "package foo", ["TestFoo"]⟩

/-! Helper lemmas relating the two variants and exposing the shape of
`parseOptions` and `Run`. -/

/-- When `parseOptions` of process.go succeeds it emits nothing. -/
theorem process_parseOptions_eq (compile : Compile) (o : Options) (g : GOptions)
    (hpo : (process.parseOptions compile o).2 = some g) :
    process.parseOptions compile o = ([], some g) := by
  by_cases hc : o.OnlyFuncs = "" ∧ o.ExclFuncs = "" ∧ o.ExportedFuncs = false ∧ o.AllFuncs = false
  · simp [process.parseOptions, hc] at hpo
  · rcases h1 : parseRegexp compile o.OnlyFuncs with e | onlyRE
    · simp [process.parseOptions, hc, h1] at hpo
    · rcases h2 : parseRegexp compile o.ExclFuncs with e | exclRE
      · simp [process.parseOptions, hc, h1, h2] at hpo
      · simp only [process.parseOptions, hc, h1, h2, if_neg hc] at hpo ⊢
        simp_all

/-- Both variants compute the same engine options from the same inputs. -/
theorem parseOptions_agree (compile : Compile) (o : Options) :
    (processU.parseOptions compile o).2 = (process.parseOptions compile o).2 := by
  unfold process.parseOptions processU.parseOptions
  split
  · rfl
  · rcases h1 : parseRegexp compile o.OnlyFuncs with e | onlyRE
    · rfl
    · rcases h2 : parseRegexp compile o.ExclFuncs with e | exclRE <;> rfl

/-- When `parseOptions` of part_000 succeeds it emits nothing. -/
theorem processU_parseOptions_eq (compile : Compile) (o : Options) (g : GOptions)
    (hpo : (process.parseOptions compile o).2 = some g) :
    processU.parseOptions compile o = ([], some g) := by
  by_cases hc : o.OnlyFuncs = "" ∧ o.ExclFuncs = "" ∧ o.ExportedFuncs = false ∧ o.AllFuncs = false
  · simp [process.parseOptions, hc] at hpo
  · rcases h1 : parseRegexp compile o.OnlyFuncs with e | onlyRE
    · simp [process.parseOptions, hc, h1] at hpo
    · rcases h2 : parseRegexp compile o.ExclFuncs with e | exclRE
      · simp [process.parseOptions, hc, h1, h2] at hpo
      · simp only [process.parseOptions, hc, h1, h2, if_neg hc] at hpo
        simp only [processU.parseOptions, hc, h1, h2, if_neg hc]
        simp_all

/-- On a non-empty path list with valid options, `Run` of process.go is the
concatenation of the per-path traces. -/
theorem process_run_eq (compile : Compile) (gen : Gen) (wr : Wr) (o : Options)
    (g : GOptions) (p : String) (rest : List String)
    (hpo : (process.parseOptions compile o).2 = some g) :
    process.Run compile gen wr (p :: rest) (some o) =
      ((p :: rest).map (fun path => process.generateTests gen wr path o.WriteOutput g)).flatten := by
  unfold process.Run
  simp only [Option.getD_some, process_parseOptions_eq compile o g hpo]
  rfl

/-- On a non-empty path list with valid options, `Run` of part_000 is the
halting sequence of the per-path traces. -/
theorem processU_run_eq (compile : Compile) (gen : Gen) (wr : Wr) (o : Options)
    (g : GOptions) (p : String) (rest : List String)
    (hpo : (process.parseOptions compile o).2 = some g) :
    processU.Run compile gen wr (p :: rest) (some o) =
      runSeq (fun path => processU.generateTests gen wr path o.WriteOutput g) (p :: rest) := by
  unfold processU.Run
  simp only [Option.getD_some, processU_parseOptions_eq compile o g hpo]
  rfl

/-- A successful `parseOptions` of process.go carries exactly the compiled
patterns and the copied flags of the input options. -/
theorem process_parseOptions_some (compile : Compile) (o : Options) (g : GOptions)
    (hpo : (process.parseOptions compile o).2 = some g) :
    parseRegexp compile o.OnlyFuncs = .ok g.Only ∧
    parseRegexp compile o.ExclFuncs = .ok g.Exclude ∧
    g.Exported = o.ExportedFuncs ∧ g.PrintInputs = o.PrintInputs ∧
    g.Subtests = o.Subtests ∧ g.AllowError = o.AllowError := by
  by_cases hc : o.OnlyFuncs = "" ∧ o.ExclFuncs = "" ∧ o.ExportedFuncs = false ∧ o.AllFuncs = false
  · simp [process.parseOptions, hc] at hpo
  · rcases h1 : parseRegexp compile o.OnlyFuncs with e | onlyRE
    · simp [process.parseOptions, hc, h1] at hpo
    · rcases h2 : parseRegexp compile o.ExclFuncs with e | exclRE
      · simp [process.parseOptions, hc, h1, h2] at hpo
      · simp only [process.parseOptions, if_neg hc, h1, h2] at hpo
        simp at hpo
        subst hpo
        simp_all

/-! Claim theorems. -/

/-- C10: calling `Run` with a nil `Options` pointer does not crash: the nil
pointer is replaced by the zero-value `Options`, which has no filtering mode
set, so both variants end with the configuration-error line and no path is
ever processed (no call into the engine occurs). -/
theorem C10_nil_options (compile : Compile) (gen : Gen) (wr : Wr) (args : List String) :
    process.Run compile gen wr args none =
      [Event.msg msgError "[ERROR]\t" "-> please specify either the -only, -excl, -export, or -all flag"] ∧
    processU.Run compile gen wr args none =
      ([Event.die "-> please specify either the -only, -excl, -export, or -all flag"], true) ∧
    (∀ p, Event.genCall p ∉ process.Run compile gen wr args none) ∧
    (∀ p, Event.genCall p ∉ (processU.Run compile gen wr args none).1) := by
  refine ⟨?_, ?_, ?_, ?_⟩ <;>
    simp [process.Run, processU.Run, process.parseOptions, processU.parseOptions, zeroOptions]

/-- C8: when the options pass validation but the args list is empty, both
variants report the please-specify-a-file error and perform no generation:
the engine is never called and no file write is attempted. -/
theorem C8_empty_args (compile : Compile) (gen : Gen) (wr : Wr) (o : Options) (g : GOptions)
    (hpo : (process.parseOptions compile o).2 = some g) :
    process.Run compile gen wr [] (some o) =
      [Event.msg msgError "[ERROR]\t" "-> please specify a file or directory containing the source"] ∧
    processU.Run compile gen wr [] (some o) =
      ([Event.die "-> please specify a file or directory containing the source"], true) ∧
    (∀ p, Event.genCall p ∉ process.Run compile gen wr [] (some o)) ∧
    (∀ p c perm, Event.writeFile p c perm ∉ process.Run compile gen wr [] (some o)) := by
  have h1 := process_parseOptions_eq compile o g hpo
  have h2 := processU_parseOptions_eq compile o g hpo
  refine ⟨?_, ?_, ?_, ?_⟩ <;>
    simp [process.Run, processU.Run, h1, h2]

/-- C8 witness: a concrete run with valid options and empty args. -/
theorem C8_empty_args_witness :
    process.Run cCompile cGen cWr [] (some cOptsAll) =
      [Event.msg msgError "[ERROR]\t" "-> please specify a file or directory containing the source"] :=
  (C8_empty_args cCompile cGen cWr cOptsAll ⟨none, none, false, false, false, false⟩ (by decide)).1

/-- C9: an empty `OnlyFuncs` or `ExclFuncs` string is treated as no filter:
`parseRegexp` returns no pattern and no error for the empty string whatever
the compiler oracle does, and the corresponding `Only` or `Exclude` field of
the engine options built by `parseOptions` is nil. -/
theorem C9_empty_pattern (compile : Compile) (o : Options) (g : GOptions) :
    parseRegexp compile "" = .ok none ∧
    (o.OnlyFuncs = "" → (process.parseOptions compile o).2 = some g → g.Only = none) ∧
    (o.ExclFuncs = "" → (process.parseOptions compile o).2 = some g → g.Exclude = none) := by
  refine ⟨rfl, ?_, ?_⟩ <;> intro hs hpo
  · have h := (process_parseOptions_some compile o g hpo).1
    rw [hs] at h
    simpa [parseRegexp] using h.symm
  · have h := (process_parseOptions_some compile o g hpo).2.1
    rw [hs] at h
    simpa [parseRegexp] using h.symm

/-- C9 witness: the exported-only configuration with empty patterns yields
nil `Only` and `Exclude` fields. -/
theorem C9_empty_pattern_witness :
    (process.parseOptions cCompile ⟨"", "", true, false, false, false, false, false⟩).2 =
      some ⟨none, none, true, false, false, false⟩ ∧
    (⟨none, none, true, false, false, false⟩ : GOptions).Only = none := by
  have h := C9_empty_pattern cCompile ⟨"", "", true, false, false, false, false, false⟩
    ⟨none, none, true, false, false, false⟩
  exact ⟨by decide, h.2.1 rfl (by decide)⟩

/-- C1 counterexample: with allow-error false and `GenerateTests` failing on
path `a`, the process.go run does not stop — the remaining path `b` is still
processed, refuting the claim that the run halts when allow-error is off. -/
theorem C1_counterexample :
    cOptsAll.AllowError = false ∧
    (process.parseOptions cCompile cOptsAll).2 = some ⟨none, none, false, false, false, false⟩ ∧
    cGen "a" ⟨none, none, false, false, false, false⟩ = .error "boom" ∧
    Event.genCall "b" ∈ process.Run cCompile cGen cWr ["a", "b"] (some cOptsAll) := by
  decide

/-- C1 amended: when `GenerateTests` returns an error for a path, the
process.go wrapper prints the error text and always continues — every
remaining path is still processed — while the part_000 wrapper always dies at
that path, so no remaining path is processed; in both variants this happens
whatever the allow-error option says, the option being merely forwarded to
the engine. -/
theorem C1_engine_error (compile : Compile) (gen : Gen) (wr : Wr) (o : Options)
    (g : GOptions) (p : String) (rest : List String) (e : String)
    (hpo : (process.parseOptions compile o).2 = some g)
    (hg : gen p g = .error e) :
    Event.raw e ∈ process.Run compile gen wr (p :: rest) (some o) ∧
    (∀ q ∈ rest, Event.genCall q ∈ process.Run compile gen wr (p :: rest) (some o)) ∧
    processU.Run compile gen wr (p :: rest) (some o) =
      ([Event.genCall p, Event.die ("-> generate test failed: " ++ e)], true) := by
  have hp : process.generateTests gen wr p o.WriteOutput g = [.genCall p, .raw e] := by
    simp [process.generateTests, hg]
  have hpu : processU.generateTests gen wr p o.WriteOutput g =
      ([Event.genCall p, .die ("-> generate test failed: " ++ e)], true) := by
    simp [processU.generateTests, hg]
  refine ⟨?_, ?_, ?_⟩
  · rw [process_run_eq compile gen wr o g p rest hpo]
    exact List.mem_flatten.mpr
      ⟨_, List.mem_map_of_mem _ (List.mem_cons_self p rest), by rw [hp]; simp⟩
  · intro q hq
    rw [process_run_eq compile gen wr o g p rest hpo]
    exact List.mem_flatten.mpr
      ⟨_, List.mem_map_of_mem _ (List.mem_cons_of_mem p hq),
        by simp [process.generateTests]⟩
  · rw [processU_run_eq compile gen wr o g p rest hpo]
    simp [runSeq, hpu]

/-- C1 witness: the amended behaviour at a concrete failing first path. -/
theorem C1_engine_error_witness :
    Event.raw "boom" ∈ process.Run cCompile cGen cWr ["a", "b"] (some cOptsAll) ∧
    processU.Run cCompile cGen cWr ["a", "b"] (some cOptsAll) =
      ([Event.genCall "a", Event.die "-> generate test failed: boom"], true) := by
  have h := C1_engine_error cCompile cGen cWr cOptsAll
    ⟨none, none, false, false, false, false⟩ "a" ["b"] "boom" (by decide) (by decide)
  exact ⟨h.1, h.2.2⟩

/-- C2 counterexample: an `Options` value with three filtering modes set at
once (a non-empty `OnlyFuncs`, `ExportedFuncs` and `AllFuncs`) is not
rejected: `parseOptions` accepts it and the path is processed, refuting the
exactly-one requirement. -/
theorem C2_counterexample :
    cOptsMulti.OnlyFuncs ≠ "" ∧ cOptsMulti.ExportedFuncs = true ∧ cOptsMulti.AllFuncs = true ∧
    (process.parseOptions cCompile cOptsMulti).2 = some ⟨some "x", none, true, false, false, false⟩ ∧
    Event.genCall "pkg" ∈ process.Run cCompile cGen cWr ["pkg"] (some cOptsMulti) := by
  decide

/-- C2 amended: at least one filtering mode must be configured — an `Options`
value with none of them set is rejected as a configuration error before any
indexing occurs (the engine is never called, in either variant) — but a value
with more than one mode set is accepted. -/
theorem C2_mode_validation (compile : Compile) (gen : Gen) (wr : Wr)
    (args : List String) (o : Options)
    (h : o.OnlyFuncs = "" ∧ o.ExclFuncs = "" ∧ o.ExportedFuncs = false ∧ o.AllFuncs = false) :
    (process.parseOptions compile o).2 = none ∧
    process.Run compile gen wr args (some o) =
      [Event.msg msgError "[ERROR]\t" "-> please specify either the -only, -excl, -export, or -all flag"] ∧
    (∀ p, Event.genCall p ∉ process.Run compile gen wr args (some o)) ∧
    (processU.Run compile gen wr args (some o)).2 = true ∧
    (∀ p, Event.genCall p ∉ (processU.Run compile gen wr args (some o)).1) := by
  obtain ⟨h1, h2, h3, h4⟩ := h
  refine ⟨?_, ?_, ?_, ?_, ?_⟩ <;>
    simp [process.Run, processU.Run, process.parseOptions, processU.parseOptions, h1, h2, h3, h4]

/-- C2 witness: the zero options value is rejected with the flag-error line. -/
theorem C2_mode_validation_witness :
    process.Run cCompile cGen cWr ["p"] (some zeroOptions) =
      [Event.msg msgError "[ERROR]\t" "-> please specify either the -only, -excl, -export, or -all flag"] :=
  (C2_mode_validation cCompile cGen cWr ["p"] zeroOptions (by decide)).2.1

/-- C5: a path whose generation succeeds with zero generated tests produces a
non-error status line (an info line in process.go, a warning in part_000) and
never halts the run: process.go still processes every subsequent path, and
the part_000 step comes back with its halted flag off. -/
theorem C5_zero_tests (compile : Compile) (gen : Gen) (wr : Wr) (o : Options)
    (g : GOptions) (p : String) (rest : List String)
    (hpo : (process.parseOptions compile o).2 = some g)
    (hg : gen p g = .ok []) :
    Event.msg msgInfo "[INFO]\t" ("-> no tests generated for: " ++ p) ∈
      process.Run compile gen wr (p :: rest) (some o) ∧
    (∀ q ∈ rest, Event.genCall q ∈ process.Run compile gen wr (p :: rest) (some o)) ∧
    (processU.generateTests gen wr p o.WriteOutput g).2 = false ∧
    Event.warn ("-> no tests generated for: " ++ p) ∈
      (processU.Run compile gen wr (p :: rest) (some o)).1 := by
  have hp : process.generateTests gen wr p o.WriteOutput g =
      [.genCall p, .msg msgInfo "[INFO]\t" ("-> no tests generated for: " ++ p)] := by
    simp [process.generateTests, hg]
  have hpu : processU.generateTests gen wr p o.WriteOutput g =
      ([Event.genCall p, .warn ("-> no tests generated for: " ++ p)], false) := by
    simp [processU.generateTests, hg, runSeq]
  refine ⟨?_, ?_, ?_, ?_⟩
  · rw [process_run_eq compile gen wr o g p rest hpo]
    exact List.mem_flatten.mpr
      ⟨_, List.mem_map_of_mem _ (List.mem_cons_self p rest), by rw [hp]; simp⟩
  · intro q hq
    rw [process_run_eq compile gen wr o g p rest hpo]
    exact List.mem_flatten.mpr
      ⟨_, List.mem_map_of_mem _ (List.mem_cons_of_mem p hq),
        by simp [process.generateTests]⟩
  · rw [hpu]
  · rw [processU_run_eq compile gen wr o g p rest hpo]
    simp [runSeq, hpu]

/-- C5 witness: a concrete zero-test path followed by a second path. -/
theorem C5_zero_tests_witness :
    Event.msg msgInfo "[INFO]\t" "-> no tests generated for: p" ∈
      process.Run cCompile cGen cWr ["p", "q"] (some cOptsAll) ∧
    Event.genCall "q" ∈ process.Run cCompile cGen cWr ["p", "q"] (some cOptsAll) := by
  have h := C5_zero_tests cCompile cGen cWr cOptsAll
    ⟨none, none, false, false, false, false⟩ "p" ["q"] (by decide) (by decide)
  exact ⟨h.1, h.2.1 "q" (by simp)⟩

/-- A `parseRegexp` failure is exactly a compiler failure on a non-empty
pattern. -/
theorem parseRegexp_error (compile : Compile) (s : String) :
    (∃ e, parseRegexp compile s = .error e) ↔ (s ≠ "" ∧ ∃ e, compile s = .error e) := by
  unfold parseRegexp
  by_cases hs : s = "" <;> simp [hs]
  rcases h : compile s with e | re <;> simp [h]

/-- When `parseOptions` of process.go fails, its trace is a single error
line. -/
theorem process_parseOptions_none (compile : Compile) (o : Options)
    (hnone : (process.parseOptions compile o).2 = none) :
    ∃ s, (process.parseOptions compile o).1 = [Event.msg msgError "[ERROR]\t" s] := by
  by_cases hc : o.OnlyFuncs = "" ∧ o.ExclFuncs = "" ∧ o.ExportedFuncs = false ∧ o.AllFuncs = false
  · exact ⟨"-> please specify either the -only, -excl, -export, or -all flag",
      by simp [process.parseOptions, hc]⟩
  · rcases h1 : parseRegexp compile o.OnlyFuncs with e | onlyRE
    · exact ⟨"-> invalid -only regex:" ++ e, by simp [process.parseOptions, if_neg hc, h1]⟩
    · rcases h2 : parseRegexp compile o.ExclFuncs with e | exclRE
      · exact ⟨"-> invalid -excl regex:" ++ e, by simp [process.parseOptions, if_neg hc, h1, h2]⟩
      · simp [process.parseOptions, if_neg hc, h1, h2] at hnone

/-- C3: a configuration error — no filtering mode selected, or an `OnlyFuncs`
or `ExclFuncs` pattern that fails to compile — is exactly what makes
`parseOptions` fail, and then `Run` stops before any path is processed: the
trace is one error line, the engine is never called, and nothing is written
or emitted. -/
theorem C3_fail_fast (compile : Compile) (o : Options) :
    ((process.parseOptions compile o).2 = none ↔
      ((o.OnlyFuncs = "" ∧ o.ExclFuncs = "" ∧ o.ExportedFuncs = false ∧ o.AllFuncs = false) ∨
       (o.OnlyFuncs ≠ "" ∧ ∃ e, compile o.OnlyFuncs = .error e) ∨
       (o.ExclFuncs ≠ "" ∧ ∃ e, compile o.ExclFuncs = .error e))) ∧
    ((process.parseOptions compile o).2 = none →
      ∀ gen wr args,
        (∃ s, process.Run compile gen wr args (some o) = [Event.msg msgError "[ERROR]\t" s]) ∧
        (∀ p, Event.genCall p ∉ process.Run compile gen wr args (some o)) ∧
        (∀ p c perm, Event.writeFile p c perm ∉ process.Run compile gen wr args (some o)) ∧
        (∀ b, Event.bytes b ∉ process.Run compile gen wr args (some o))) := by
  constructor
  · by_cases hc : o.OnlyFuncs = "" ∧ o.ExclFuncs = "" ∧ o.ExportedFuncs = false ∧ o.AllFuncs = false
    · simp [process.parseOptions, hc]
    · rcases h1 : parseRegexp compile o.OnlyFuncs with e | onlyRE
      · have hb := (parseRegexp_error compile o.OnlyFuncs).mp ⟨e, h1⟩
        simp only [process.parseOptions, if_neg hc, h1]
        simp [hb]
      · rcases h2 : parseRegexp compile o.ExclFuncs with e | exclRE
        · have hb := (parseRegexp_error compile o.ExclFuncs).mp ⟨e, h2⟩
          simp only [process.parseOptions, if_neg hc, h1, h2]
          simp [hb]
        · simp only [process.parseOptions, if_neg hc, h1, h2]
          constructor
          · intro h; simp at h
          · rintro (h | ⟨hne, e, hce⟩ | ⟨hne, e, hce⟩)
            · exact absurd h hc
            · have : ∃ e, parseRegexp compile o.OnlyFuncs = .error e :=
                (parseRegexp_error compile o.OnlyFuncs).mpr ⟨hne, e, hce⟩
              rcases this with ⟨e2, he2⟩
              rw [h1] at he2
              cases he2
            · have : ∃ e, parseRegexp compile o.ExclFuncs = .error e :=
                (parseRegexp_error compile o.ExclFuncs).mpr ⟨hne, e, hce⟩
              rcases this with ⟨e2, he2⟩
              rw [h2] at he2
              cases he2
  · intro hnone gen wr args
    have hrun : process.Run compile gen wr args (some o) = (process.parseOptions compile o).1 := by
      unfold process.Run
      simp only [Option.getD_some]
      rw [hnone]
    obtain ⟨s, hs⟩ := process_parseOptions_none compile o hnone
    rw [hrun, hs]
    refine ⟨⟨s, rfl⟩, ?_, ?_, ?_⟩ <;> simp

/-- C3 witness: a malformed `OnlyFuncs` pattern at a concrete run. -/
theorem C3_fail_fast_witness :
    (process.parseOptions cCompileBad ⟨"(", "", false, false, false, false, false, false⟩).2 =
      none ∧
    (∀ p, Event.genCall p ∉
      process.Run cCompileBad cGen cWr ["a"]
        (some ⟨"(", "", false, false, false, false, false, false⟩)) := by
  have h := C3_fail_fast cCompileBad ⟨"(", "", false, false, false, false, false, false⟩
  have hnone : (process.parseOptions cCompileBad
      ⟨"(", "", false, false, false, false, false, false⟩).2 = none :=
    h.1.mpr (Or.inr (Or.inl (by exact ⟨by decide, "error parsing regexp: missing closing )", by decide⟩)))
  exact ⟨hnone, (h.2 hnone cGen cWr ["a"]).2.1⟩

/-- Every write attempt of process.go `outputTest` uses `newFilePerm`. -/
theorem process_outputTest_perm (wr : Wr) (wo : Bool) (t : GeneratedTest)
    (p c : String) (perm : Nat)
    (h : Event.writeFile p c perm ∈ process.outputTest wr wo t) : perm = newFilePerm := by
  unfold process.outputTest at h
  cases wo with
  | false => simp at h
  | true =>
    rcases hw : wr t.Path t.Output with _ | e <;> rw [hw] at h <;> simp at h <;> simp_all

/-- Every write attempt of part_000 `outputTest` uses `newFilePerm`. -/
theorem processU_outputTest_perm (wr : Wr) (wo : Bool) (t : GeneratedTest)
    (p c : String) (perm : Nat)
    (h : Event.writeFile p c perm ∈ (processU.outputTest wr wo t).1) : perm = newFilePerm := by
  unfold processU.outputTest at h
  cases wo with
  | false => simp at h
  | true =>
    rcases hw : wr t.Path t.Output with _ | e <;> rw [hw] at h <;> simp at h <;> simp_all

/-- An event of a `runSeq` trace comes from one of the steps. -/
theorem runSeq_mem {α : Type} (f : α → List Event × Bool) (xs : List α) (ev : Event)
    (h : ev ∈ (runSeq f xs).1) : ∃ x ∈ xs, ev ∈ (f x).1 := by
  induction xs with
  | nil => simp [runSeq] at h
  | cons x xs ih =>
    simp only [runSeq] at h
    split at h
    · exact ⟨x, by simp, h⟩
    · rcases List.mem_append.mp h with h | h
      · exact ⟨x, by simp, h⟩
      · obtain ⟨y, hy, hev⟩ := ih h
        exact ⟨y, by simp [hy], hev⟩

/-- Every write attempt of process.go `generateTests` uses `newFilePerm`. -/
theorem process_generateTests_perm (gen : Gen) (wr : Wr) (path : String) (wo : Bool)
    (g : GOptions) (p c : String) (perm : Nat)
    (h : Event.writeFile p c perm ∈ process.generateTests gen wr path wo g) :
    perm = newFilePerm := by
  unfold process.generateTests at h
  rcases hg : gen path g with e | gts
  · simp [hg] at h
  · simp only [hg, List.mem_cons] at h
    rcases h with h | h
    · cases h
    · by_cases hl : gts.length = 0
      · rw [if_pos hl] at h
        simp at h
      · rw [if_neg hl] at h
        obtain ⟨l, hl2, hev⟩ := List.mem_flatten.mp h
        obtain ⟨t, _, ht⟩ := List.mem_map.mp hl2
        exact process_outputTest_perm wr wo t p c perm (ht ▸ hev)

/-- Every write attempt of part_000 `generateTests` uses `newFilePerm`. -/
theorem processU_generateTests_perm (gen : Gen) (wr : Wr) (path : String) (wo : Bool)
    (g : GOptions) (p c : String) (perm : Nat)
    (h : Event.writeFile p c perm ∈ (processU.generateTests gen wr path wo g).1) :
    perm = newFilePerm := by
  unfold processU.generateTests at h
  rcases hg : gen path g with e | gts
  · simp [hg] at h
  · simp only [hg, List.mem_cons] at h
    rcases h with h | h
    · cases h
    · rcases List.mem_append.mp h with h | h
      · by_cases hl : gts.length = 0 <;> simp [hl] at h
      · obtain ⟨t, _, ht⟩ := runSeq_mem (processU.outputTest wr wo) gts _ h
        exact processU_outputTest_perm wr wo t p c perm ht

/-- When `parseOptions` of part_000 fails, its trace is a single die line. -/
theorem processU_parseOptions_none (compile : Compile) (o : Options)
    (hnone : (processU.parseOptions compile o).2 = none) :
    ∃ s, (processU.parseOptions compile o).1 = [Event.die s] := by
  by_cases hc : o.OnlyFuncs = "" ∧ o.ExclFuncs = "" ∧ o.ExportedFuncs = false ∧ o.AllFuncs = false
  · exact ⟨"-> please specify either the -only, -excl, -export, or -all flag",
      by simp [processU.parseOptions, hc]⟩
  · rcases h1 : parseRegexp compile o.OnlyFuncs with e | onlyRE
    · exact ⟨"-> invalid -only regex: " ++ e, by simp [processU.parseOptions, if_neg hc, h1]⟩
    · rcases h2 : parseRegexp compile o.ExclFuncs with e | exclRE
      · exact ⟨"-> invalid -excl regex: " ++ e,
          by simp [processU.parseOptions, if_neg hc, h1, h2]⟩
      · simp [processU.parseOptions, if_neg hc, h1, h2] at hnone

/-- C6: every file write performed by either variant — over all compiler,
engine and writer oracles, paths and options — attempts the write with
`newFilePerm`, which is the octal mode 0644 (owner read/write, group and
other read). -/
theorem C6_file_mode (compile : Compile) (gen : Gen) (wr : Wr) (args : List String)
    (opts : Option Options) (p c : String) (perm : Nat) :
    (Event.writeFile p c perm ∈ process.Run compile gen wr args opts ∨
     Event.writeFile p c perm ∈ (processU.Run compile gen wr args opts).1) →
    perm = newFilePerm ∧ newFilePerm = 0o644 := by
  intro h
  refine ⟨?_, rfl⟩
  rcases h with h | h
  · simp only [process.Run] at h
    rcases hpo : (process.parseOptions compile (opts.getD zeroOptions)).2 with _ | g <;>
      simp only [hpo] at h
    · obtain ⟨s, hs⟩ := process_parseOptions_none compile _ hpo
      rw [hs] at h
      simp at h
    · rw [process_parseOptions_eq compile _ g hpo] at h
      by_cases hl : args.length = 0
      · rw [if_pos hl] at h
        simp at h
      · rw [if_neg hl] at h
        simp only [List.nil_append] at h
        obtain ⟨l, hl2, hev⟩ := List.mem_flatten.mp h
        obtain ⟨q, _, hq⟩ := List.mem_map.mp hl2
        exact process_generateTests_perm gen wr q _ g p c perm (hq ▸ hev)
  · simp only [processU.Run] at h
    rcases hpo : (processU.parseOptions compile (opts.getD zeroOptions)).2 with _ | g <;>
      simp only [hpo] at h
    · obtain ⟨s, hs⟩ := processU_parseOptions_none compile _ hpo
      rw [hs] at h
      simp at h
    · have hpo2 : (process.parseOptions compile (opts.getD zeroOptions)).2 = some g := by
        rw [← parseOptions_agree]; exact hpo
      rw [processU_parseOptions_eq compile _ g hpo2] at h
      by_cases hl : args.length = 0
      · rw [if_pos hl] at h
        simp at h
      · rw [if_neg hl] at h
        simp only [List.nil_append] at h
        obtain ⟨q, _, hq⟩ :=
          runSeq_mem (fun path =>
            processU.generateTests gen wr path (opts.getD zeroOptions).WriteOutput g) args _ h
        exact processU_generateTests_perm gen wr q _ g p c perm hq

/-- A writer-mode engine oracle yielding one fixed generated test. -/
def cGenOne : Gen := fun _ _ => .ok [cTest]

/-- An `Options` value with `AllFuncs` and `WriteOutput` set. -/
def cOptsWrite : Options := ⟨"", "", false, true, false, false, true, false⟩

/-- C6 witness: a concrete run that writes a file, at permission value 420
(the decimal reading of octal 644). -/
theorem C6_file_mode_witness :
    newFilePerm = 0o644 ∧
    Event.writeFile "foo_test.go" "package foo" 420 ∈
      process.Run cCompile cGenOne cWr ["p"] (some cOptsWrite) := by
  have hmem : Event.writeFile "foo_test.go" "package foo" 420 ∈
      process.Run cCompile cGenOne cWr ["p"] (some cOptsWrite) := by decide
  exact ⟨(C6_file_mode cCompile cGenOne cWr ["p"] (some cOptsWrite)
    "foo_test.go" "package foo" 420 (Or.inl hmem)).2, hmem⟩

/-- Marks the events that print a human-readable status line (formatted
messages and error texts, but not generated-test bytes, file writes or
engine calls). -/
def Event.isStatus : Event → Bool
  | .msg _ _ _ => true
  | .msg2 _ _ => true
  | .raw _ => true
  | .die _ => true
  | .warn _ => true
  | .info _ => true
  | .bytes _ => false
  | .writeFile _ _ _ => false
  | .genCall _ => false

/-- Filtering for status lines keeps a list of status events unchanged. -/
theorem filter_status_map (f : String → Event) (hf : ∀ x, (f x).isStatus = true)
    (l : List String) : (l.map f).filter Event.isStatus = l.map f :=
  List.filter_eq_self.mpr (by
    intro a ha
    obtain ⟨x, _, rfl⟩ := List.mem_map.mp ha
    exact hf x)

/-- C7: each outcome yields exactly the expected status lines — an engine
error prints the error text once, a zero-test path prints one info line, a
handled generated file prints exactly one generated line per test function
(and nothing else), and a write failure prints one error line; the part_000
variant does the same for every outcome: one die line per engine error or
write failure, one warn line per zero-test path, and one info line per
generated test function in both write modes. -/
theorem C7_status_lines (gen : Gen) (wr : Wr) (path : String) (wo : Bool)
    (g : GOptions) (t : GeneratedTest) (e : String) :
    (gen path g = .error e →
      (process.generateTests gen wr path wo g).filter Event.isStatus = [Event.raw e]) ∧
    (gen path g = .ok [] →
      (process.generateTests gen wr path wo g).filter Event.isStatus =
        [Event.msg msgInfo "[INFO]\t" ("-> no tests generated for: " ++ path)]) ∧
    (wr t.Path t.Output = none →
      (process.outputTest wr true t).filter Event.isStatus =
        t.Functions.map (fun f => Event.msg msgInfo "[INFO]\t" ("-> generated: " ++ f))) ∧
    ((process.outputTest wr false t).filter Event.isStatus =
      t.Functions.map (fun f => Event.msg msgInfo "[INFO]\t" ("-> generated: " ++ f))) ∧
    (wr t.Path t.Output = some e →
      (process.outputTest wr true t).filter Event.isStatus = [Event.msg2 msgError e]) ∧
    ((processU.outputTest wr false t).1.filter Event.isStatus =
      t.Functions.map (fun f => Event.info ("-> generated: " ++ f))) ∧
    (gen path g = .error e →
      (processU.generateTests gen wr path wo g).1.filter Event.isStatus =
        [Event.die ("-> generate test failed: " ++ e)]) ∧
    (gen path g = .ok [] →
      (processU.generateTests gen wr path wo g).1.filter Event.isStatus =
        [Event.warn ("-> no tests generated for: " ++ path)]) ∧
    (wr t.Path t.Output = none →
      (processU.outputTest wr true t).1.filter Event.isStatus =
        t.Functions.map (fun f => Event.info ("-> generated: " ++ f))) ∧
    (wr t.Path t.Output = some e →
      (processU.outputTest wr true t).1.filter Event.isStatus =
        [Event.die ("-> write file " ++ t.Path ++ " failed: " ++ e)]) := by
  refine ⟨?_, ?_, ?_, ?_, ?_, ?_, ?_, ?_, ?_, ?_⟩
  · intro hg
    simp [process.generateTests, hg, Event.isStatus]
  · intro hg
    simp [process.generateTests, hg, Event.isStatus]
  · intro hw
    have hshape : process.outputTest wr true t =
        Event.writeFile t.Path t.Output newFilePerm ::
          t.Functions.map (fun f => Event.msg msgInfo "[INFO]\t" ("-> generated: " ++ f)) := by
      simp [process.outputTest, hw]
    rw [hshape, List.filter_cons_of_neg (by simp [Event.isStatus])]
    exact filter_status_map (fun f => Event.msg msgInfo "[INFO]\t" ("-> generated: " ++ f))
      (fun x => rfl) t.Functions
  · have hshape : process.outputTest wr false t =
        t.Functions.map (fun f => Event.msg msgInfo "[INFO]\t" ("-> generated: " ++ f)) ++
          [Event.bytes t.Output] := by
      simp [process.outputTest]
    rw [hshape, List.filter_append,
      filter_status_map (fun f => Event.msg msgInfo "[INFO]\t" ("-> generated: " ++ f))
        (fun x => rfl) t.Functions]
    simp [Event.isStatus]
  · intro hw
    simp [process.outputTest, hw, Event.isStatus]
  · have hshape : (processU.outputTest wr false t).1 =
        t.Functions.map (fun f => Event.info ("-> generated: " ++ f)) := by
      simp [processU.outputTest]
    rw [hshape]
    exact filter_status_map (fun f => Event.info ("-> generated: " ++ f))
      (fun x => rfl) t.Functions
  · intro hg
    simp [processU.generateTests, hg, Event.isStatus]
  · intro hg
    simp [processU.generateTests, hg, runSeq, Event.isStatus]
  · intro hw
    have hshape : (processU.outputTest wr true t).1 =
        Event.writeFile t.Path t.Output newFilePerm ::
          t.Functions.map (fun f => Event.info ("-> generated: " ++ f)) := by
      simp [processU.outputTest, hw]
    rw [hshape, List.filter_cons_of_neg (by simp [Event.isStatus])]
    exact filter_status_map (fun f => Event.info ("-> generated: " ++ f))
      (fun x => rfl) t.Functions
  · intro hw
    simp [processU.outputTest, hw, Event.isStatus]

/-- C7 witness: the per-function status lines of a concrete generated test
with a successful write. -/
theorem C7_status_lines_witness :
    (process.outputTest cWr true cTest).filter Event.isStatus =
      [Event.msg msgInfo "[INFO]\t" "-> generated: TestFoo"] :=
  (C7_status_lines cGen cWr "p" true ⟨none, none, false, false, false, false⟩
    cTest "e").2.2.1 rfl

/-- C4: in the process.go variant, write-mode on writes the rendered bytes to
the generated file path and write-mode off writes the raw bytes to the out
stream; in the part_000 variant with write-mode off, the rendered bytes are
never emitted at all — only the per-function info lines appear — although its
doc comment promises output to `out` by default. Evaluated at a concrete
generated test. -/
theorem C4_write_modes :
    process.outputTest cWr true cTest =
      [Event.writeFile "foo_test.go" "package foo" newFilePerm,
       Event.msg msgInfo "[INFO]\t" "-> generated: TestFoo"] ∧
    process.outputTest cWr false cTest =
      [Event.msg msgInfo "[INFO]\t" "-> generated: TestFoo", Event.bytes "package foo"] ∧
    (processU.outputTest cWr false cTest).1 = [Event.info "-> generated: TestFoo"] ∧
    (∀ b, Event.bytes b ∉ (processU.outputTest cWr false cTest).1) := by
  refine ⟨by decide, by decide, by decide, ?_⟩
  intro b
  have h : (processU.outputTest cWr false cTest).1 = [Event.info "-> generated: TestFoo"] := by
    decide
  rw [h]
  simp

end GotestsProcess
